import Mathlib

/-!
# Certificate-generation core of firefly-io/karmada-operator

A shallow embedding of the Go package `certs` (key generation, self-signed CA
construction, leaf signing against a CA, SAN normalization, PEM encoding, and
the bundle orchestrator `GenCerts`), with theorems checking the repository's
specification against it.

Modelling conventions:
* Effectful library primitives (`crypto/rand`, `time.Now`, key generation,
  `x509.CreateCertificate`, `certutil.NewSelfSignedCACert`,
  `keyutil.MarshalPrivateKeyToPEM`) are modelled as explicit oracles carried
  in environment records; every Go function of the package is otherwise
  translated line by line.
* Go slices are Lean lists; a nil slice and an empty slice are both `[]`
  (the `!= nil` guard in `RemoveDuplicateAltNames` only distinguishes those
  two, and both normalize to `[]`, so it is dropped).
* Go byte slices standing for DER material are `List Nat`; PEM output is a
  `String`.
* Go's in-place mutation through a `*CertsConfig` is made explicit:
  `NewSignedCert` returns the caller-visible config after the call as the
  second component of its result.
* Go `error` values are their message `String`s; `fmt.Errorf("... %v", err)`
  wrapping is string concatenation; `time.Time` is an `Int` (nanoseconds),
  `time.Duration` likewise.
-/

namespace Certs

/-- `Duration365d = time.Hour * 24 * 365` (nanoseconds). -/
def Duration365d : Int := 365 * 24 * 60 * 60 * 1000000000

/-- Go `net.IP`: a byte slice, either the 4-byte IPv4 form or the 16-byte
form. -/
structure NetIP where
  bytes : List Nat
deriving DecidableEq, Repr

/-- Go `net.IP.To4`: the 4-byte form when the address is IPv4 — either
already 4 bytes long, or the 16-byte IPv4-mapped form
`::ffff:a.b.c.d`. -/
def NetIP.to4 (ip : NetIP) : Option (List Nat) :=
  match ip.bytes with
  | [a, b, c, d] => some [a, b, c, d]
  | [0, 0, 0, 0, 0, 0, 0, 0, 0, 0, 0xff, 0xff, a, b, c, d] => some [a, b, c, d]
  | _ => none

/-- A byte as two lowercase hex digits. -/
def hexByte (n : Nat) : String :=
  let s := String.mk (Nat.toDigits 16 n)
  if s.length == 1 then "0" ++ s else s

/-- A byte list as lowercase hex. -/
def hexOfBytes (bs : List Nat) : String := String.join (bs.map hexByte)

/-- Go `net.IP.String()`, the canonical text form used as the deduplication
key: IPv4 addresses (including the IPv4-mapped 16-byte form) print as the
dotted quad; other 16-byte addresses print their eight 16-bit groups in hex
(Go additionally compresses the longest zero run with `::`; both renderings
are injective on this case, so deduplication by the string is unchanged);
any other length prints as `?` plus the raw bytes in hex. -/
def NetIP.string (ip : NetIP) : String :=
  match ip.to4 with
  | some quad => String.intercalate "." (quad.map (fun b => toString b))
  | none =>
    if ip.bytes.length == 16 then
      String.intercalate ":" ((ip.bytes.toChunks 2).map hexOfBytes)
    else
      "?" ++ hexOfBytes ip.bytes

/-- Go `certutil.AltNames`. -/
structure AltNames where
  dnsNames : List String := []
  ips : List NetIP := []
deriving DecidableEq, Repr

/-- The `x509.ExtKeyUsage` values this package uses. -/
inductive ExtKeyUsage
  | serverAuth
  | clientAuth
  | other (code : Nat)
deriving DecidableEq, Repr

/-- Go `x509.PublicKeyAlgorithm`; the zero value is
`UnknownPublicKeyAlgorithm`. -/
inductive PublicKeyAlgorithm
  | unknownAlgorithm
  | rsa
  | dsa
  | ecdsa
  | ed25519
deriving DecidableEq, Repr

/-- `CertsConfig` (the embedded `certutil.Config` is flattened): CommonName,
Organization, Usages and AltNames from `certutil.Config`, plus the package's
`NotAfter` and `PublicKeyAlgorithm` fields.  Zero values follow Go. -/
structure CertsConfig where
  commonName : String := ""
  organization : List String := []
  usages : List ExtKeyUsage := []
  altNames : AltNames := {}
  notAfter : Option Int := none
  publicKeyAlgorithm : PublicKeyAlgorithm := .unknownAlgorithm
deriving DecidableEq, Repr

/-- A parsed `x509.Certificate` restricted to the fields this package reads
or writes; `raw` is `Certificate.Raw`, the DER bytes. -/
structure Certificate where
  commonName : String := ""
  organization : List String := []
  dnsNames : List String := []
  ips : List NetIP := []
  serialNumber : Nat := 0
  notBefore : Int := 0
  notAfter : Int := 0
  keyUsage : Nat := 0
  extKeyUsage : List ExtKeyUsage := []
  basicConstraintsValid : Bool := false
  isCA : Bool := false
  raw : List Nat := []
deriving DecidableEq, Repr

/-- An asymmetric signing key (`crypto.Signer`); opaque to this package, so
identified abstractly. -/
structure SigKey where
  id : Nat
deriving DecidableEq, Repr

/-- `x509.KeyUsageDigitalSignature`. -/
def keyUsageDigitalSignature : Nat := 1
/-- `x509.KeyUsageKeyEncipherment`. -/
def keyUsageKeyEncipherment : Nat := 4
/-- `x509.KeyUsageCertSign`. -/
def keyUsageCertSign : Nat := 32

/-- The lexicographic order on strings (by their character sequences),
Go's `sort.Strings` order. -/
def strLe (a b : String) : Prop := a.data ≤ b.data

instance : DecidableRel strLe :=
  fun a b => inferInstanceAs (Decidable (a.data ≤ b.data))

instance : IsTotal String strLe := ⟨fun a b => le_total a.data b.data⟩

instance : IsTrans String strLe := ⟨fun _ _ _ hab hbc => le_trans hab hbc⟩

instance : IsAntisymm String strLe :=
  ⟨fun a b hab hba => String.ext (le_antisymm hab hba)⟩

/-- Go `sets.NewString(xs...).List()`: the distinct strings of `xs`, sorted
lexicographically. -/
def stringSetList (l : List String) : List String :=
  l.dedup.insertionSort strLe

/-- The loop of `RemoveDuplicateAltNames` over `altNames.IPs`: keep each IP
whose canonical string form (`one.String()` in Go, the key of the `ipsKeys`
map) has not been seen yet. -/
def dedupIPs (seen : List String) : List NetIP → List NetIP
  | [] => []
  | ip :: rest =>
    if ip.string ∈ seen then dedupIPs seen rest
    else ip :: dedupIPs (ip.string :: seen) rest

/-- `RemoveDuplicateAltNames`: DNS names through a string set (deduplicated,
sorted); IPs deduplicated by canonical string form in first-seen order.  The
Go function takes a pointer and rewrites both fields in place; here it
returns the rewritten value. -/
def RemoveDuplicateAltNames (altNames : AltNames) : AltNames :=
  { dnsNames := stringSetList altNames.dnsNames
    ips := dedupIPs [] altNames.ips }

/-- Oracles for the effectful steps of `NewSignedCert`: `serial` is the
outcome of `rand.Int(rand.Reader, 2^63-1)`, `now` is `time.Now()` at the
call, and `create` the outcome of `x509.CreateCertificate` (on success the
DER bytes; the certificate parsed back out of them carries the template's
fields, which is what `x509.ParseCertificate` recovers). -/
structure SignEnv where
  serial : Except String Nat
  now : Int
  create : Certificate → Certificate → SigKey → SigKey → Except String (List Nat)

/-- `NewSignedCert`.  First component: the Go result (certificate or error).
Second component: the caller-visible config after the call — Go receives a
`*CertsConfig` and `RemoveDuplicateAltNames(&cfg.AltNames)` rewrites the
caller's `AltNames` in place, which this component makes observable. -/
def NewSignedCert (env : SignEnv) (cfg : CertsConfig) (key : SigKey)
    (caCert : Certificate) (caKey : SigKey) (isCA : Bool) :
    Except String Certificate × CertsConfig :=
  match env.serial with
  | .error e => (.error e, cfg)
  | .ok serial =>
    if cfg.commonName.length == 0 then
      (.error "must specify a CommonName", cfg)
    else
      let keyUsage :=
        if isCA then
          (keyUsageKeyEncipherment ||| keyUsageDigitalSignature) ||| keyUsageCertSign
        else
          keyUsageKeyEncipherment ||| keyUsageDigitalSignature
      let cfg := { cfg with altNames := RemoveDuplicateAltNames cfg.altNames }
      -- Go: `notAfter := time.Now().Add(Duration365d).UTC()`, overridden by
      -- `*cfg.NotAfter` when that pointer is non-nil.
      let notAfterVal : Int := cfg.notAfter.getD (env.now + Duration365d)
      let certTmpl : Certificate :=
        { commonName := cfg.commonName
          organization := cfg.organization
          dnsNames := cfg.altNames.dnsNames
          ips := cfg.altNames.ips
          serialNumber := serial
          notBefore := caCert.notBefore
          notAfter := notAfterVal
          keyUsage := keyUsage
          extKeyUsage := cfg.usages
          basicConstraintsValid := true
          isCA := isCA }
      match env.create certTmpl caCert key caKey with
      | .error e => (.error e, cfg)
      | .ok der => (.ok { certTmpl with raw := der }, cfg)

/-- `certificateBlockType`, a possible value for `pem.Block.Type`. -/
def certificateBlockType : String := "CERTIFICATE"

/-- Go `pem.EncodeToMemory` on a block with no headers: the armored text
around the block's bytes.  (Go renders the body in base64; the body's exact
text is irrelevant to every property here, so it is rendered in hex.) -/
def pemEncodeToMemory (blockType : String) (bytes : List Nat) : String :=
  "-----BEGIN " ++ blockType ++ "-----\n" ++ hexOfBytes bytes ++
    "\n-----END " ++ blockType ++ "-----\n"

/-- `EncodeCertPEM`: PEM-encoded certificate data. -/
def EncodeCertPEM (cert : Certificate) : String :=
  pemEncodeToMemory certificateBlockType cert.raw

/-- Oracles for CA construction: `keyGen` is the outcome of the (swappable)
package-level `NewPrivateKey` for the requested algorithm, `selfSigned` the
outcome of the library call `certutil.NewSelfSignedCACert(config, key)`. -/
structure CAEnv where
  keyGen : PublicKeyAlgorithm → Except String SigKey
  selfSigned : CertsConfig → SigKey → Except String Certificate

/-- `NewCertificateAuthority`: new certificate and private key for a
certificate authority. -/
def NewCertificateAuthority (env : CAEnv) (config : CertsConfig) :
    Except String (Certificate × SigKey) :=
  match env.keyGen config.publicKeyAlgorithm with
  | .error e =>
    .error ("unable to create private key while generating CA certificate " ++ e)
  | .ok key =>
    match env.selfSigned config key with
    | .error e => .error ("unable to create self-signed CA certificate " ++ e)
    | .ok cert => .ok (cert, key)

/-- `NewCACertAndKey`: the certificate and key of a root CA with the given
common name. -/
def NewCACertAndKey (env : CAEnv) (cn : String) :
    Except String (Certificate × SigKey) :=
  match NewCertificateAuthority env { commonName := cn } with
  | .error e => .error ("failure while generating CA certificate and key: " ++ e)
  | .ok p => .ok p

/-- An observable effect of `NewCertAndKey`: the package-level
`NewPrivateKey` was invoked (key material was generated, or at least its
generation was attempted) for the given algorithm. -/
inductive Effect
  | keyGen (alg : PublicKeyAlgorithm)
deriving DecidableEq, Repr

/-- Oracles for `NewCertAndKey`: the subject key generation plus the signing
step's oracles. -/
structure CertEnv where
  keyGen : PublicKeyAlgorithm → Except String SigKey
  sign : SignEnv

/-- `NewCertAndKey`.  Components: the Go result, the caller-visible config
after the call (the config pointer is passed down to `NewSignedCert`, which
rewrites its `AltNames` in place), and the key-generation effects performed
during the call — empty exactly when `NewPrivateKey` was never reached. -/
def NewCertAndKey (env : CertEnv) (caCert : Certificate) (caKey : SigKey)
    (config : CertsConfig) :
    Except String (Certificate × SigKey) × CertsConfig × List Effect :=
  if config.usages.length == 0 then
    (.error "must specify at least one ExtKeyUsage", config, [])
  else
    match env.keyGen config.publicKeyAlgorithm with
    | .error e =>
      (.error ("unable to create private key " ++ e), config,
        [.keyGen config.publicKeyAlgorithm])
    | .ok key =>
      match NewSignedCert env.sign config key caCert caKey false with
      | (.error e, cfgAfter) =>
        (.error ("unable to sign certificate. " ++ e), cfgAfter,
          [.keyGen config.publicKeyAlgorithm])
      | (.ok cert, cfgAfter) =>
        (.ok (cert, key), cfgAfter, [.keyGen config.publicKeyAlgorithm])

/-- `NewCertConfig`: the constructor used by callers of the bundle
orchestrator; the usages are fixed to server plus client authentication and
the remaining `CertsConfig` fields keep their Go zero values. -/
def NewCertConfig (cn : String) (org : List String) (altNames : AltNames)
    (notAfter : Option Int) : CertsConfig :=
  { commonName := cn
    organization := org
    usages := [.serverAuth, .clientAuth]
    altNames := altNames
    notAfter := notAfter }

/-- Go `keyutil.MarshalPrivateKeyToPEM`, through an oracle giving the PEM
block type and DER bytes of a key (or the marshal failure); on success the
result is the PEM armor around those bytes, as the library produces. -/
def marshalPrivateKeyToPEM (oracle : SigKey → Except String (String × List Nat))
    (key : SigKey) : Except String String :=
  match oracle key with
  | .error e => .error e
  | .ok (t, der) => .ok (pemEncodeToMemory t der)

/-- Oracles for one `GenCerts` run: one `CAEnv` per CA hierarchy, one
`CertEnv` per leaf identity, and the key-marshalling oracle (a function of
the key, as `keyutil.MarshalPrivateKeyToPEM` is). -/
structure GenEnv where
  karmadaCA : CAEnv
  frontProxyCA : CAEnv
  etcdCA : CAEnv
  karmadaLeaf : CertEnv
  apiserverLeaf : CertEnv
  frontProxyClientLeaf : CertEnv
  etcdServerLeaf : CertEnv
  etcdClientLeaf : CertEnv
  marshalKey : SigKey → Except String (String × List Nat)

/-- `GenCerts`.  Go returns the pair `(map[string][]byte, error)`; that pair
is modelled as `(Option bundle, Option error)` — every `return nil, err`
site is `(none, some e)` and the final `return data, nil` is
`(some data, none)`.  The Go function inserts into a local map `data` as it
goes; since the map is only observable at the final return, the bundle is
written out there in insertion order as an association list (all sixteen
keys are distinct). -/
def GenCerts (env : GenEnv)
    (etcdServerCertCfg etcdClientCertCfg karmadaCertCfg apiserverCertCfg
      frontProxyClientCertCfg : CertsConfig) :
    Option (List (String × String)) × Option String :=
  match NewCACertAndKey env.karmadaCA "karmada" with
  | .error e => (none, some e)
  | .ok (caCert, caKey) =>
  match marshalPrivateKeyToPEM env.marshalKey caKey with
  | .error e => (none, some e)
  | .ok encodedCAKey =>
  match (NewCertAndKey env.karmadaLeaf caCert caKey karmadaCertCfg).1 with
  | .error e => (none, some e)
  | .ok (karmadaCert, karmadaKey) =>
  match marshalPrivateKeyToPEM env.marshalKey karmadaKey with
  | .error e => (none, some e)
  | .ok encodedKarmadaKey =>
  match (NewCertAndKey env.apiserverLeaf caCert caKey apiserverCertCfg).1 with
  | .error e => (none, some e)
  | .ok (apiserverCert, apiserverKey) =>
  match marshalPrivateKeyToPEM env.marshalKey apiserverKey with
  | .error e => (none, some e)
  | .ok encodedApiserverKey =>
  match NewCACertAndKey env.frontProxyCA "front-proxy-ca" with
  | .error e => (none, some e)
  | .ok (frontProxyCaCert, frontProxyCaKey) =>
  match marshalPrivateKeyToPEM env.marshalKey frontProxyCaKey with
  | .error e => (none, some e)
  | .ok encodedFrontProxyCaKey =>
  match (NewCertAndKey env.frontProxyClientLeaf frontProxyCaCert frontProxyCaKey
      frontProxyClientCertCfg).1 with
  | .error e => (none, some e)
  | .ok (frontProxyClientCert, frontProxyClientKey) =>
  match marshalPrivateKeyToPEM env.marshalKey frontProxyClientKey with
  | .error e => (none, some e)
  | .ok encodedFrontProxyClientKey =>
  match NewCACertAndKey env.etcdCA "etcd-ca" with
  | .error e => (none, some e)
  | .ok (etcdCaCert, etcdCaKey) =>
  match marshalPrivateKeyToPEM env.marshalKey etcdCaKey with
  | .error e => (none, some e)
  | .ok encodedEtcdCaKey =>
  match (NewCertAndKey env.etcdServerLeaf etcdCaCert etcdCaKey
      etcdServerCertCfg).1 with
  | .error e => (none, some e)
  | .ok (etcdServerCert, etcdServerKey) =>
  match marshalPrivateKeyToPEM env.marshalKey etcdServerKey with
  | .error e => (none, some e)
  | .ok encodedEtcdServerKey =>
  match (NewCertAndKey env.etcdClientLeaf etcdCaCert etcdCaKey
      etcdClientCertCfg).1 with
  | .error e => (none, some e)
  | .ok (etcdClientCert, etcdClientKey) =>
  match marshalPrivateKeyToPEM env.marshalKey etcdClientKey with
  | .error e => (none, some e)
  | .ok encodedEtcdClientKey =>
    (some
      [("ca.key", encodedCAKey), ("ca.crt", EncodeCertPEM caCert),
       ("karmada.key", encodedKarmadaKey),
       ("karmada.crt", EncodeCertPEM karmadaCert),
       ("apiserver.key", encodedApiserverKey),
       ("apiserver.crt", EncodeCertPEM apiserverCert),
       ("front-proxy-ca.key", encodedFrontProxyCaKey),
       ("front-proxy-ca.crt", EncodeCertPEM frontProxyCaCert),
       ("front-proxy-client.key", encodedFrontProxyClientKey),
       ("front-proxy-client.crt", EncodeCertPEM frontProxyClientCert),
       ("etcd-ca.key", encodedEtcdCaKey),
       ("etcd-ca.crt", EncodeCertPEM etcdCaCert),
       ("etcd-server.key", encodedEtcdServerKey),
       ("etcd-server.crt", EncodeCertPEM etcdServerCert),
       ("etcd-client.key", encodedEtcdClientKey),
       ("etcd-client.crt", EncodeCertPEM etcdClientCert)],
     none)

/-! ## Lemmas about SAN normalization -/

lemma dedupIPs_sublist (seen : List String) (l : List NetIP) :
    (dedupIPs seen l).Sublist l := by
  induction l generalizing seen with
  | nil => simp [dedupIPs]
  | cons a rest ih =>
    rw [dedupIPs]
    split
    · exact (ih seen).cons a
    · exact (ih _).cons₂ a

lemma dedupIPs_not_seen (seen : List String) (l : List NetIP) :
    ∀ ip ∈ dedupIPs seen l, ip.string ∉ seen := by
  induction l generalizing seen with
  | nil => intro ip h; simp [dedupIPs] at h
  | cons a rest ih =>
    intro ip hip
    rw [dedupIPs] at hip
    by_cases hs : a.string ∈ seen
    · rw [if_pos hs] at hip
      exact ih seen ip hip
    · rw [if_neg hs] at hip
      rcases List.mem_cons.mp hip with h | h
      · subst h; exact hs
      · intro hmem
        exact ih (a.string :: seen) ip h (List.mem_cons_of_mem _ hmem)

lemma dedupIPs_filter_take (k : String) (seen : List String) (l : List NetIP)
    (hk : k ∉ seen) :
    (dedupIPs seen l).filter (fun ip => ip.string == k)
      = (l.filter (fun ip => ip.string == k)).take 1 := by
  induction l generalizing seen with
  | nil => simp [dedupIPs]
  | cons a rest ih =>
    rw [dedupIPs]
    by_cases hs : a.string ∈ seen
    · have hne : a.string ≠ k := fun h => hk (h ▸ hs)
      rw [if_pos hs, ih seen hk]
      simp [List.filter_cons, hne]
    · rw [if_neg hs]
      by_cases hak : a.string = k
      · simp [List.filter_cons, hak]
        intro ip hip h
        exact dedupIPs_not_seen _ _ ip hip (by rw [h]; exact List.mem_cons_self _ _)
      · have hk' : k ∉ a.string :: seen := by
          intro h
          rcases List.mem_cons.mp h with h | h
          · exact hak h.symm
          · exact hk h
        simp [List.filter_cons, hak, ih (a.string :: seen) hk']

lemma dedupIPs_string_nodup (seen : List String) (l : List NetIP) :
    ((dedupIPs seen l).map NetIP.string).Nodup := by
  induction l generalizing seen with
  | nil => simp [dedupIPs]
  | cons a rest ih =>
    rw [dedupIPs]
    split
    · exact ih seen
    · simp only [List.map_cons, List.nodup_cons]
      refine ⟨fun hmem => ?_, ih _⟩
      rcases List.mem_map.mp hmem with ⟨ip, hip, heq⟩
      exact dedupIPs_not_seen _ _ ip hip (heq ▸ List.mem_cons_self _ _)

lemma dedupIPs_fixed (l : List NetIP) :
    ∀ seen, (l.map NetIP.string).Nodup → (∀ ip ∈ l, ip.string ∉ seen) →
      dedupIPs seen l = l := by
  induction l with
  | nil => intro seen _ _; rfl
  | cons a rest ih =>
    intro seen hnodup hseen
    simp only [List.map_cons, List.nodup_cons] at hnodup
    rw [dedupIPs, if_neg (hseen a (List.mem_cons_self _ _))]
    congr 1
    apply ih (a.string :: seen) hnodup.2
    intro ip hip h
    rcases List.mem_cons.mp h with h | h
    · exact hnodup.1 (h ▸ List.mem_map_of_mem NetIP.string hip)
    · exact hseen ip (List.mem_cons_of_mem _ hip) h

lemma stringSetList_sorted (l : List String) : (stringSetList l).Sorted strLe :=
  List.sorted_insertionSort strLe _

lemma stringSetList_nodup (l : List String) : (stringSetList l).Nodup :=
  (List.perm_insertionSort strLe l.dedup).nodup_iff.mpr (List.nodup_dedup l)

lemma stringSetList_mem (l : List String) (s : String) :
    s ∈ stringSetList l ↔ s ∈ l := by
  rw [stringSetList, List.mem_insertionSort, List.mem_dedup]

lemma stringSetList_idem (l : List String) :
    stringSetList (stringSetList l) = stringSetList l := by
  conv_lhs => rw [stringSetList, List.dedup_eq_self.mpr (stringSetList_nodup l)]
  exact (stringSetList_sorted l).insertionSort_eq

/-! ## Claim theorems about SAN normalization -/

/-- C6: for every SAN set, `RemoveDuplicateAltNames` returns the DNS names
deduplicated by exact string match and sorted lexicographically, and the IP
addresses deduplicated by their canonical string form in first-seen order
(the output IPs are a subsequence of the input, and for every canonical
string the output keeps exactly the first input entry bearing it). -/
theorem removeDuplicateAltNames_spec (an : AltNames) :
    (RemoveDuplicateAltNames an).dnsNames.Sorted strLe ∧
    (RemoveDuplicateAltNames an).dnsNames.Nodup ∧
    (∀ s : String, s ∈ (RemoveDuplicateAltNames an).dnsNames ↔ s ∈ an.dnsNames) ∧
    (RemoveDuplicateAltNames an).ips.Sublist an.ips ∧
    (∀ k : String,
      (RemoveDuplicateAltNames an).ips.filter (fun ip => ip.string == k)
        = (an.ips.filter (fun ip => ip.string == k)).take 1) := by
  refine ⟨stringSetList_sorted _, stringSetList_nodup _,
    fun s => stringSetList_mem _ s, dedupIPs_sublist [] _, fun k => ?_⟩
  exact dedupIPs_filter_take k [] an.ips (List.not_mem_nil k)

/-- C7: `RemoveDuplicateAltNames` is idempotent — applying it twice yields
the same SAN set as applying it once. -/
theorem removeDuplicateAltNames_idempotent (an : AltNames) :
    RemoveDuplicateAltNames (RemoveDuplicateAltNames an)
      = RemoveDuplicateAltNames an := by
  unfold RemoveDuplicateAltNames
  simp only [stringSetList_idem]
  congr 1
  exact dedupIPs_fixed _ [] (dedupIPs_string_nodup [] an.ips)
    (fun ip _ h => List.not_mem_nil _ h)

/-! ## Lemmas about PEM encoding -/

lemma string_eq_empty_of_length {s : String} (h : s.length = 0) : s = "" :=
  String.ext (List.length_eq_zero.mp h)

lemma pem_ne_empty (t : String) (bs : List Nat) : pemEncodeToMemory t bs ≠ "" := by
  intro h
  have hlen := congrArg String.length h
  simp only [pemEncodeToMemory, String.length_append] at hlen
  have h1 : ("-----BEGIN " : String).length = 11 := rfl
  have h2 : ("" : String).length = 0 := rfl
  rw [h1, h2] at hlen
  omega

lemma encodeCertPEM_ne_empty (c : Certificate) : EncodeCertPEM c ≠ "" :=
  pem_ne_empty _ _

lemma marshal_ok_ne_empty (oracle : SigKey → Except String (String × List Nat))
    (k : SigKey) (s : String) (h : marshalPrivateKeyToPEM oracle k = .ok s) :
    s ≠ "" := by
  unfold marshalPrivateKeyToPEM at h
  split at h
  · exact absurd h (by simp)
  · simp only [Except.ok.injEq] at h
    exact h ▸ pem_ne_empty _ _

/-! ## Claim theorems about the certificate issuer -/

instance {ε α : Type} [DecidableEq ε] [DecidableEq α] :
    DecidableEq (Except ε α) := fun a b =>
  match a, b with
  | .error x, .error y =>
    if h : x = y then isTrue (by rw [h]) else isFalse (by simp [h])
  | .ok x, .ok y =>
    if h : x = y then isTrue (by rw [h]) else isFalse (by simp [h])
  | .error _, .ok _ => isFalse (by simp)
  | .ok _, .error _ => isFalse (by simp)

/-- Concrete witness material. -/
def key0 : SigKey := ⟨0⟩

/-- A CA certificate whose NotBefore (0) differs from the signing-time clock
of `signEnvOk` (1000). -/
def ca0 : Certificate := { notBefore := 0 }

/-- Oracles for one successful `NewSignedCert` call. -/
def signEnvOk : SignEnv :=
  { serial := .ok 7, now := 1000, create := fun _ _ _ _ => .ok [1] }

/-- A valid leaf config with no explicit expiry. -/
def cfg0 : CertsConfig := { commonName := "apiserver", usages := [.serverAuth] }

/-- A config whose DNS SANs are unsorted, so normalization changes them. -/
def cfgDup : CertsConfig :=
  { commonName := "x", altNames := { dnsNames := ["b", "a"] } }

/-- The certificate `NewSignedCert signEnvOk cfg0 key0 ca0 key0 false`
produces. -/
def certLeaf0 : Certificate :=
  { commonName := "apiserver", organization := [], dnsNames := [], ips := []
    serialNumber := 7, notBefore := 0, notAfter := 1000 + Duration365d
    keyUsage := 5, extKeyUsage := [.serverAuth], basicConstraintsValid := true
    isCA := false, raw := [1] }

/-- The validity fields of any certificate a successful `NewSignedCert` call
returns. -/
lemma newSignedCert_ok_shape (env : SignEnv) (cfg : CertsConfig)
    (key : SigKey) (caCert : Certificate) (caKey : SigKey) (isCA : Bool)
    (c : Certificate)
    (h : (NewSignedCert env cfg key caCert caKey isCA).1 = .ok c) :
    c.notBefore = caCert.notBefore ∧
    c.notAfter = cfg.notAfter.getD (env.now + Duration365d) := by
  unfold NewSignedCert at h
  split at h
  · simp at h
  · split at h
    · simp at h
    · simp only [] at h
      repeat' split at h
      · simp at h
      · simp only [Except.ok.injEq] at h
        subst h
        exact ⟨rfl, rfl⟩
      · simp only [Except.ok.injEq] at h
        subst h
        exact ⟨rfl, rfl⟩

/-- C4: every certificate `NewSignedCert` produces has NotBefore equal to the
issuing CA certificate's NotBefore (chain-anchored, not the current time). -/
theorem newSignedCert_notBefore (env : SignEnv) (cfg : CertsConfig)
    (key : SigKey) (caCert : Certificate) (caKey : SigKey) (isCA : Bool)
    (c : Certificate)
    (h : (NewSignedCert env cfg key caCert caKey isCA).1 = .ok c) :
    c.notBefore = caCert.notBefore :=
  (newSignedCert_ok_shape env cfg key caCert caKey isCA c h).1

/-- C4 witness: a concrete successful call, NotBefore chain-anchored. -/
theorem newSignedCert_notBefore_witness :
    (NewSignedCert signEnvOk cfg0 key0 ca0 key0 false).1 = .ok certLeaf0 ∧
    certLeaf0.notBefore = ca0.notBefore :=
  ⟨by decide,
    newSignedCert_notBefore signEnvOk cfg0 key0 ca0 key0 false certLeaf0
      (by decide)⟩

/-- C2 refuted: with no explicit expiry, the produced certificate's NotAfter
is the signing-time clock plus 365 days, not its (issuer-anchored) NotBefore
plus 365 days — here NotBefore is 0 but NotAfter is 1000 + 365 days. -/
theorem newSignedCert_notAfter_counterexample :
    (NewSignedCert signEnvOk cfg0 key0 ca0 key0 false).1 = .ok certLeaf0 ∧
    cfg0.notAfter = none ∧
    certLeaf0.notAfter ≠ certLeaf0.notBefore + Duration365d := by
  refine ⟨by decide, rfl, by decide⟩

/-- C2 amended: with no explicit expiry, NotAfter equals `time.Now()` at
signing plus 365 days; when `cfg.NotAfter` is provided, NotAfter equals that
explicit timestamp. -/
theorem newSignedCert_notAfter (env : SignEnv) (cfg : CertsConfig)
    (key : SigKey) (caCert : Certificate) (caKey : SigKey) (isCA : Bool)
    (c : Certificate)
    (h : (NewSignedCert env cfg key caCert caKey isCA).1 = .ok c) :
    (cfg.notAfter = none → c.notAfter = env.now + Duration365d) ∧
    (∀ t, cfg.notAfter = some t → c.notAfter = t) := by
  have hs := (newSignedCert_ok_shape env cfg key caCert caKey isCA c h).2
  refine ⟨fun hna => ?_, fun t ht => ?_⟩
  · rw [hs, hna]; rfl
  · rw [hs, ht]; rfl

/-- C2 amended, witness: concrete successful call with no explicit expiry. -/
theorem newSignedCert_notAfter_witness :
    (NewSignedCert signEnvOk cfg0 key0 ca0 key0 false).1 = .ok certLeaf0 ∧
    cfg0.notAfter = none ∧
    certLeaf0.notAfter = signEnvOk.now + Duration365d :=
  ⟨by decide, rfl,
    (newSignedCert_notAfter signEnvOk cfg0 key0 ca0 key0 false certLeaf0
      (by decide)).1 rfl⟩

/-- C3 refuted: `NewSignedCert` receives a pointer to the caller's config and
normalizes its `AltNames` in place; after this call the caller's DNS-name
list has changed from `["b", "a"]` to `["a", "b"]`. -/
theorem newSignedCert_mutation_counterexample :
    ((NewSignedCert signEnvOk cfgDup key0 ca0 key0 false).2).altNames.dnsNames
      ≠ cfgDup.altNames.dnsNames := by decide

/-- C3 amended: whenever the call passes the serial draw and the CommonName
check, the caller's config is mutated in place — its `AltNames` are replaced
by their normalization (on the two earlier error paths it is untouched). -/
theorem newSignedCert_normalizes_in_place (env : SignEnv) (cfg : CertsConfig)
    (key : SigKey) (caCert : Certificate) (caKey : SigKey) (isCA : Bool)
    (s : Nat) (hs : env.serial = .ok s) (hcn : cfg.commonName ≠ "") :
    (NewSignedCert env cfg key caCert caKey isCA).2
      = { cfg with altNames := RemoveDuplicateAltNames cfg.altNames } := by
  have hlen : (cfg.commonName.length == 0) = false := by
    simp only [beq_eq_false_iff_ne, ne_eq]
    exact fun h => hcn (string_eq_empty_of_length h)
  unfold NewSignedCert
  rw [hs]
  simp only [hlen, Bool.false_eq_true, if_false]
  split <;> rfl

/-- C3 amended, witness: a concrete call whose caller-visible config ends up
with normalized AltNames. -/
theorem newSignedCert_normalizes_in_place_witness :
    (NewSignedCert signEnvOk cfgDup key0 ca0 key0 false).2
      = { cfgDup with altNames := RemoveDuplicateAltNames cfgDup.altNames } :=
  newSignedCert_normalizes_in_place signEnvOk cfgDup key0 ca0 key0 false 7
    rfl (by decide)

/-- C9: on a config with empty CommonName (and a successful serial draw,
which in the source precedes the check), `NewSignedCert` fails with the
validation error and returns no certificate. -/
theorem newSignedCert_empty_commonName (env : SignEnv) (cfg : CertsConfig)
    (key : SigKey) (caCert : Certificate) (caKey : SigKey) (isCA : Bool)
    (s : Nat) (hs : env.serial = .ok s) (hcn : cfg.commonName = "") :
    (NewSignedCert env cfg key caCert caKey isCA).1
      = .error "must specify a CommonName" := by
  unfold NewSignedCert
  rw [hs, hcn]
  rfl

/-- C9 witness: a concrete call with empty CommonName. -/
theorem newSignedCert_empty_commonName_witness :
    (NewSignedCert signEnvOk {} key0 ca0 key0 false).1
      = .error "must specify a CommonName" :=
  newSignedCert_empty_commonName signEnvOk {} key0 ca0 key0 false 7 rfl rfl

/-- Oracles for one `NewCertAndKey` call. -/
def certEnvOk : CertEnv := { keyGen := fun _ => .ok ⟨1⟩, sign := signEnvOk }

/-- C8: on a config with no extended key usages, `NewCertAndKey` fails with
the validation error, and no key generation is performed on that path (the
effect trace is empty). -/
theorem newCertAndKey_empty_usages (env : CertEnv) (caCert : Certificate)
    (caKey : SigKey) (config : CertsConfig) (h : config.usages = []) :
    (NewCertAndKey env caCert caKey config).1
        = .error "must specify at least one ExtKeyUsage" ∧
    (NewCertAndKey env caCert caKey config).2.2 = [] := by
  unfold NewCertAndKey
  rw [h]
  exact ⟨rfl, rfl⟩

/-- C8 witness: a concrete call with zero extended key usages. -/
theorem newCertAndKey_empty_usages_witness :
    (NewCertAndKey certEnvOk ca0 key0 {}).1
        = .error "must specify at least one ExtKeyUsage" ∧
    (NewCertAndKey certEnvOk ca0 key0 {}).2.2 = [] :=
  newCertAndKey_empty_usages certEnvOk ca0 key0 {} rfl

/-- C10: every config built by `NewCertConfig` has its extended-key-usage
list fixed to exactly server authentication then client authentication —
regardless of the other arguments, so the list is not configurable through
this constructor — and in particular it is non-empty, satisfying
`NewCertAndKey`'s precondition. -/
theorem newCertConfig_usages (cn : String) (org : List String)
    (altNames : AltNames) (notAfter : Option Int) :
    (NewCertConfig cn org altNames notAfter).usages
        = [.serverAuth, .clientAuth] ∧
    (NewCertConfig cn org altNames notAfter).usages ≠ [] :=
  ⟨rfl, by simp [NewCertConfig]⟩

/-! ## Claim theorems about the bundle orchestrator -/

/-- Every `GenCerts` run ends in exactly one of the two Go return shapes:
`(nil, err)` after the first failing step, or `(bundle, nil)`. -/
lemma genCerts_cases (env : GenEnv) (c1 c2 c3 c4 c5 : CertsConfig) :
    (∃ e, GenCerts env c1 c2 c3 c4 c5 = (none, some e)) ∨
    (∃ b, GenCerts env c1 c2 c3 c4 c5 = (some b, none)) := by
  unfold GenCerts
  repeat' split
  any_goals exact .inl ⟨_, rfl⟩
  exact .inr ⟨_, rfl⟩

/-- C1: bundle generation is atomic — whenever `GenCerts` returns an error
(any step failed), it returns no bundle at all, never a partial mapping. -/
theorem genCerts_atomic (env : GenEnv) (c1 c2 c3 c4 c5 : CertsConfig)
    (e : String) (h : (GenCerts env c1 c2 c3 c4 c5).2 = some e) :
    (GenCerts env c1 c2 c3 c4 c5).1 = none := by
  rcases genCerts_cases env c1 c2 c3 c4 c5 with ⟨e', he⟩ | ⟨b, hb⟩
  · rw [he]
  · rw [hb] at h
    simp at h

/-- The sixteen bundle keys, in insertion order. -/
def bundleKeys : List String :=
  ["ca.key", "ca.crt", "karmada.key", "karmada.crt",
   "apiserver.key", "apiserver.crt",
   "front-proxy-ca.key", "front-proxy-ca.crt",
   "front-proxy-client.key", "front-proxy-client.crt",
   "etcd-ca.key", "etcd-ca.crt",
   "etcd-server.key", "etcd-server.crt",
   "etcd-client.key", "etcd-client.crt"]

/-- C5: every successful `GenCerts` call returns a bundle whose key list is
exactly the sixteen fixed names, each mapped to a non-empty PEM value. -/
theorem genCerts_success (env : GenEnv) (c1 c2 c3 c4 c5 : CertsConfig)
    (b : List (String × String))
    (h : (GenCerts env c1 c2 c3 c4 c5).1 = some b) :
    b.map Prod.fst = bundleKeys ∧ ∀ p ∈ b, p.2 ≠ "" := by
  unfold GenCerts at h
  repeat' split at h
  any_goals exact absurd h Option.noConfusion
  simp only [Option.some.injEq] at h
  subst h
  refine ⟨rfl, ?_⟩
  intro p hp
  fin_cases hp <;>
    first
      | exact encodeCertPEM_ne_empty _
      | exact marshal_ok_ne_empty _ _ _ (by assumption)

/-! ## Concrete environments and configs for the orchestrator claims -/

/-- All-success oracles for one `GenCerts` run. -/
def envOk : GenEnv :=
  { karmadaCA :=
      { keyGen := fun _ => .ok ⟨0⟩
        selfSigned := fun _ _ =>
          .ok { commonName := "karmada", notBefore := 5, raw := [1] } }
    frontProxyCA :=
      { keyGen := fun _ => .ok ⟨1⟩
        selfSigned := fun _ _ =>
          .ok { commonName := "front-proxy-ca", raw := [2] } }
    etcdCA :=
      { keyGen := fun _ => .ok ⟨2⟩
        selfSigned := fun _ _ => .ok { commonName := "etcd-ca", raw := [3] } }
    karmadaLeaf :=
      { keyGen := fun _ => .ok ⟨3⟩
        sign := { serial := .ok 11, now := 100, create := fun _ _ _ _ => .ok [4] } }
    apiserverLeaf :=
      { keyGen := fun _ => .ok ⟨4⟩
        sign := { serial := .ok 12, now := 100, create := fun _ _ _ _ => .ok [5] } }
    frontProxyClientLeaf :=
      { keyGen := fun _ => .ok ⟨5⟩
        sign := { serial := .ok 13, now := 100, create := fun _ _ _ _ => .ok [6] } }
    etcdServerLeaf :=
      { keyGen := fun _ => .ok ⟨6⟩
        sign := { serial := .ok 14, now := 100, create := fun _ _ _ _ => .ok [7] } }
    etcdClientLeaf :=
      { keyGen := fun _ => .ok ⟨7⟩
        sign := { serial := .ok 15, now := 100, create := fun _ _ _ _ => .ok [8] } }
    marshalKey := fun k => .ok ("RSA PRIVATE KEY", [k.id]) }

/-- `envOk` with key generation failing on the third identity (the apiserver
leaf), as in the spec's induced-failure scenario. -/
def envFail : GenEnv :=
  { envOk with
    apiserverLeaf :=
      { keyGen := fun _ => .error "entropy exhausted"
        sign := envOk.apiserverLeaf.sign } }

/-- Five valid leaf configs (built through the constructor the repository's
callers use). -/
def cfgK : CertsConfig := NewCertConfig "system:admin" ["system:masters"] {} none

def cfgA : CertsConfig :=
  NewCertConfig "karmada-apiserver" []
    { dnsNames := ["localhost"], ips := [⟨[127, 0, 0, 1]⟩] } none

def cfgFP : CertsConfig := NewCertConfig "front-proxy-client" [] {} none

def cfgES : CertsConfig := NewCertConfig "karmada-etcd-server" [] {} none

def cfgEC : CertsConfig := NewCertConfig "karmada-etcd-client" [] {} none

/-- C1 witness: with key generation failing on the apiserver leaf, `GenCerts`
returns the error and no bundle — zero partial entries observable. -/
theorem genCerts_atomic_witness :
    (GenCerts envFail cfgES cfgEC cfgK cfgA cfgFP).2
        = some "unable to create private key entropy exhausted" ∧
    (GenCerts envFail cfgES cfgEC cfgK cfgA cfgFP).1 = none :=
  ⟨by decide,
    genCerts_atomic envFail cfgES cfgEC cfgK cfgA cfgFP
      "unable to create private key entropy exhausted" (by decide)⟩

/-- C5 witness: a concrete all-success run, with the sixteen fixed keys and
non-empty PEM values. -/
theorem genCerts_success_witness :
    ((GenCerts envOk cfgES cfgEC cfgK cfgA cfgFP).1.getD []).map Prod.fst
        = bundleKeys ∧
    ∀ p ∈ (GenCerts envOk cfgES cfgEC cfgK cfgA cfgFP).1.getD [], p.2 ≠ "" :=
  genCerts_success envOk cfgES cfgEC cfgK cfgA cfgFP
    ((GenCerts envOk cfgES cfgEC cfgK cfgA cfgFP).1.getD []) (by decide)

end Certs
